import Mathlib

/-!
# Verification of split_aud (src/main.rs)

Shallow embedding of the core of `split_audio`: the trim extractor, the
frame-to-timecode converter, and the segment selector.  Machine floats of
the source (`f32`) are modelled as exact rationals; the external `chrono`
time library is modelled by its documented behaviour on the inputs the
program feeds it.
-/

namespace SplitAud

/-! ### Trim extractor (main.rs lines 67-127) -/

/-- One match of the function-call trim syntax, regex groups 1 and 2 of
`trim(id, START, END)`.  Both captures come from digit runs, hence are
non-negative. -/
structure TrimMatch where
  startFrame : Nat
  endFrame : Nat
deriving DecidableEq

/-- One match of the python slice syntax `clip[START: END]`: START is a digit
run (non-negative), END is a signed integer. -/
structure SliceMatch where
  startFrame : Nat
  endRaw : Int
deriving DecidableEq

/-- main.rs lines 70-84: every trim match contributes both captured frame
numbers, start then end, in match order; no deduplication. -/
def trimFrames (trims : List TrimMatch) : List Nat :=
  trims.flatMap (fun m => [m.startFrame, m.endFrame])

/-- main.rs lines 97-108: adjustment of a slice end index.  A negative end
counts from the oracle's total frame count; a non-negative end is exclusive
and is shifted down by one. -/
def sliceEnd (totalFrames : Int) (e : Int) : Int :=
  if e < 0 then totalFrames + e else e - 1

/-- main.rs lines 112-116: a negative frame index is clamped to 0. -/
def clampFrame (x : Int) : Nat :=
  if x < 0 then 0 else x.toNat

/-- main.rs lines 90-126: each slice match contributes its start and its
adjusted, clamped end, in match order.  The start capture is a digit run, so
the clamp at line 112 is the identity on it. -/
def sliceFrames (totalFrames : Int) (slices : List SliceMatch) : List Nat :=
  slices.flatMap (fun m => [m.startFrame, clampFrame (sliceEnd totalFrames m.endRaw)])

/-- main.rs lines 67-127: the slice syntax is consulted only when the trim
syntax produced nothing (the emptiness check at line 86). -/
def extractFrames (trims : List TrimMatch) (slices : List SliceMatch)
    (totalFrames : Int) : List Nat :=
  let t := trimFrames trims
  if t.isEmpty then sliceFrames totalFrames slices else t

/-! ### Timecode converter (main.rs lines 77-82 and 117-124) -/

/-- Zero-padding a number to width two, as chrono's %H, %M, %S do. -/
def pad2 (n : Nat) : String :=
  if n < 10 then "0" ++ Nat.repr n else Nat.repr n

/-- Zero-padding a number to width three, as chrono's %.3f digits and the
split-file numbering do. -/
def pad3 (n : Nat) : String :=
  if n < 100 then "0" ++ pad2 n else Nat.repr n

/-- Model of chrono's NaiveTime: whole seconds from midnight plus a
nanosecond fraction. -/
structure NaiveTime where
  secs : Nat
  frac : Nat
deriving DecidableEq

/-- chrono NaiveTime::from_num_seconds_from_midnight_opt: fails exactly when
the seconds reach 86400 or the nanoseconds reach 2000000000. -/
def NaiveTime.fromSecondsOpt (secs nano : Nat) : Option NaiveTime :=
  if secs < 86400 && nano < 2000000000 then some ⟨secs, nano⟩ else none

/-- chrono formatting with %H:%M:%S%.3f: the displayed second absorbs a leap
nanosecond overflow and the fraction keeps its sub-second part, truncated to
milliseconds. -/
def NaiveTime.format3 (t : NaiveTime) : String :=
  pad2 (t.secs / 3600) ++ ":" ++ pad2 (t.secs % 3600 / 60) ++ ":" ++
    pad2 (t.secs % 60 + t.frac / 1000000000) ++ "." ++
    pad3 (t.frac % 1000000000 / 1000000)

/-- Rust f32::trunc: rounding toward zero, modelled on ℚ. -/
def ratTrunc (q : ℚ) : Int :=
  if q < 0 then ⌈q⌉ else ⌊q⌋

/-- Rust's saturating `as u32` cast of a float value, modelled on ℚ. -/
def ratToU32 (q : ℚ) : Nat :=
  if q < 0 then 0 else min ⌊q⌋.toNat 4294967295

/-- main.rs line 77: `frame as f32 / framerate`, in exact arithmetic. -/
def tcSeconds (fps : ℚ) (frame : Nat) : ℚ :=
  (frame : ℚ) / fps

/-- main.rs line 78: `seconds.fract() * 1_000_000_000`, in exact
arithmetic. -/
def tcNano (fps : ℚ) (frame : Nat) : ℚ :=
  (tcSeconds fps frame - (ratTrunc (tcSeconds fps frame) : ℚ)) * 1000000000

/-- main.rs lines 77-82: one frame index becomes a "%H:%M:%S%.3f" timecode
string; `none` models the panic of the `unwrap` when the time-of-day
construction fails. -/
def toTimecode (fps : ℚ) (frame : Nat) : Option String :=
  (NaiveTime.fromSecondsOpt (ratToU32 ((ratTrunc (tcSeconds fps frame) : ℚ)))
      (ratToU32 (tcNano fps frame))).map NaiveTime.format3

/-! ### Segment selector (main.rs lines 153-168) -/

/-- main.rs lines 159-161: `use_first` is set at index 0 exactly when the
first timecode is the zero timecode, and is unchanged afterwards. -/
def ufUpdate (i : Nat) (t : String) (useFirst : Bool) : Bool :=
  if i == 0 && t == "00:00:00.000" then true else useFirst

/-- main.rs lines 155-168: the merge-file loop.  `n` is the length of the
full cut-time list, `i` the running index, the Bool the `use_first` flag.
The collected values are the 1-based segment numbers `i + 1` that are pushed;
the early exit at line 156 is kept as in the source (it never fires, since
`i` stays below `n`). -/
def mergeLoop (n : Nat) : Nat → Bool → List String → List Nat
  | _, _, [] => []
  | i, useFirst, t :: rest =>
    if i == n && useFirst then
      []
    else
      if (ufUpdate i t useFirst && i % 2 == 0) ||
          (!ufUpdate i t useFirst && i % 2 == 1) then
        (i + 1) :: mergeLoop n (i + 1) (ufUpdate i t useFirst) rest
      else
        mergeLoop n (i + 1) (ufUpdate i t useFirst) rest

/-- main.rs lines 153-168: the 1-based segment numbers whose split files are
pushed onto `merge_files`, in push order. -/
def selectSegments (cutTimes : List String) : List Nat :=
  mergeLoop cutTimes.length 0 false cutTimes

/-- main.rs line 165: the split-file name formatted for segment number
`k`. -/
def mergeFileName (k : Nat) : String :=
  "split-" ++ pad3 k ++ ".mka"

/-- main.rs lines 153-168: the pushed file names themselves. -/
def mergeFiles (cutTimes : List String) : List String :=
  (selectSegments cutTimes).map mergeFileName

/-- The `use_first` flag as the source determines it: set at index 0 exactly
when the first timecode is the zero timecode. -/
def useFirstOf (cutTimes : List String) : Bool :=
  cutTimes.head? == some "00:00:00.000"

/-- The parity test of main.rs line 162 on a 0-based segment index. -/
def keepIndex (uf : Bool) (j : Nat) : Bool :=
  (uf && j % 2 == 0) || (!uf && j % 2 == 1)

/-- Selection as the spec's words describe it, for refinement comparison:
all `N + 1` segments produced by `N` cut points are classified by parity and
the kept ones are emitted 1-based in ascending order. -/
def selectSegmentsSpec (cutTimes : List String) : List Nat :=
  ((List.range (cutTimes.length + 1)).filter
    (keepIndex (useFirstOf cutTimes))).map (· + 1)

/-! ### Orchestration of the core (main.rs lines 50-168) -/

/-- The abort modes of the core: the panic at line 130 when no trims were
found, and the unwrap panic at lines 81/123 when a timecode does not fit a
time of day. -/
inductive SplitError
  | noTrims
  | timeOfDayOverflow
deriving DecidableEq

/-- The data the external splitter and merger consume: the sync delay, the
ordered cut timecodes, and the ordered kept split-file names. -/
structure MergePlan where
  delay : Int
  cutTimes : List String
  files : List String
deriving DecidableEq

/-- main.rs lines 50-168 up to the inputs of the external mkvmerge calls:
extract frames, convert each to a timecode, abort when none were found,
otherwise deliver the plan. -/
def splitAudioCore (fps : ℚ) (delay : Int) (trims : List TrimMatch)
    (slices : List SliceMatch) (totalFrames : Int) : Except SplitError MergePlan :=
  match (extractFrames trims slices totalFrames).mapM (toTimecode fps) with
  | none => .error .timeOfDayOverflow
  | some cutTimes =>
    if cutTimes.isEmpty then .error .noTrims
    else .ok ⟨delay, cutTimes, mergeFiles cutTimes⟩

/-! ### Helper lemmas -/

lemma trimFrames_nil : trimFrames [] = [] := rfl

lemma trimFrames_cons (m : TrimMatch) (ts : List TrimMatch) :
    trimFrames (m :: ts) = m.startFrame :: m.endFrame :: trimFrames ts := by
  simp [trimFrames]

lemma trimFrames_length (ts : List TrimMatch) :
    (trimFrames ts).length = 2 * ts.length := by
  induction ts with
  | nil => rfl
  | cons m ts ih => simp [trimFrames_cons, ih]; omega

lemma sliceFrames_cons (tf : Int) (m : SliceMatch) (ms : List SliceMatch) :
    sliceFrames tf (m :: ms) =
      m.startFrame :: clampFrame (sliceEnd tf m.endRaw) :: sliceFrames tf ms := by
  simp [sliceFrames]

lemma mem_mergeLoop (n : Nat) :
    ∀ (rest : List String) (i : Nat) (uf : Bool) {k : Nat},
      k ∈ mergeLoop n i uf rest → k ≤ i + rest.length := by
  intro rest
  induction rest with
  | nil =>
    intro i uf k h
    simp [mergeLoop] at h
  | cons t rest ih =>
    intro i uf k h
    rw [mergeLoop] at h
    split at h
    · simp at h
    · split at h
      · rcases List.mem_cons.mp h with rfl | h2
        · simp only [List.length_cons]
          omega
        · have := ih (i + 1) (ufUpdate i t uf) h2
          simp only [List.length_cons]
          omega
      · have := ih (i + 1) (ufUpdate i t uf) h
        simp only [List.length_cons]
        omega

lemma ufUpdate_pos (i : Nat) (t : String) (uf : Bool) (h : 1 ≤ i) :
    ufUpdate i t uf = uf := by
  have : (i == 0) = false := by
    simp only [beq_eq_false_iff_ne, ne_eq]
    omega
  simp [ufUpdate, this]

lemma mergeLoop_eq_range (n : Nat) :
    ∀ (rest : List String) (i : Nat) (uf : Bool), 1 ≤ i → i + rest.length ≤ n →
      mergeLoop n i uf rest =
        ((List.range' i rest.length).filter (keepIndex uf)).map (· + 1) := by
  intro rest
  induction rest with
  | nil =>
    intro i uf h1 h2
    simp [mergeLoop]
  | cons t rest ih =>
    intro i uf h1 h2
    have hin : (i == n) = false := by
      simp only [beq_eq_false_iff_ne, ne_eq]
      simp only [List.length_cons] at h2
      omega
    have hrec := ih (i + 1) uf (by omega) (by simp only [List.length_cons] at h2 ⊢; omega)
    rw [mergeLoop, hin]
    simp only [Bool.false_and, Bool.false_eq_true, if_false,
      ufUpdate_pos i t uf h1, List.length_cons, List.range'_succ,
      List.filter_cons, hrec, keepIndex]
    by_cases hk : ((uf && i % 2 == 0) || (!uf && i % 2 == 1)) = true
    · simp [hk]
    · simp [hk]

lemma pad2_data : ∀ n < 100, (pad2 n).data =
    [Nat.digitChar (n / 10), Nat.digitChar (n % 10)] := by
  decide

set_option maxRecDepth 10000 in
lemma pad3_data : ∀ n < 1000, (pad3 n).data =
    [Nat.digitChar (n / 100), Nat.digitChar (n / 10 % 10),
      Nat.digitChar (n % 10)] := by
  decide

lemma selectSegments_cons (t : String) (rest : List String) :
    selectSegments (t :: rest) =
      ((List.range (t :: rest).length).filter
        (keepIndex (t == "00:00:00.000"))).map (· + 1) := by
  have hupd : ufUpdate 0 t false = (t == "00:00:00.000") := by
    cases h : (t == "00:00:00.000") <;> simp [ufUpdate, h]
  have hrest := mergeLoop_eq_range (t :: rest).length rest 1
    (t == "00:00:00.000") (by omega) (by simp only [List.length_cons]; omega)
  simp only [List.length_cons] at hrest
  rw [selectSegments, mergeLoop]
  simp only [Bool.and_false, Bool.false_eq_true, if_false, hupd,
    List.length_cons, List.range_eq_range', List.range'_succ, List.filter_cons,
    keepIndex]
  by_cases hb : (t == "00:00:00.000") = true
  · simp only [hb] at hrest
    simp [hb, hrest]
  · have hb' : (t == "00:00:00.000") = false := by simpa using hb
    simp only [hb'] at hrest
    simp [hb', hrest]

/-! ### Claim theorems -/

/-- C1: the spec expects cut list `["00:00:02.500"]` (one cut point, first
not zero, so `use_first` stays false) to select exactly segment 2 of the 2
segments.  The code's loop runs over the cut points only (index 0), so the
final segment is never examined and nothing at all is selected; the dead
guard at main.rs line 156 shows the loop was meant to reach index
`cut_times.len()`.  This theorem evaluates the code and the spec's selection
rule at that input. -/
theorem selectSegments_single_cut :
    selectSegments ["00:00:02.500"] = [] ∧
    selectSegmentsSpec ["00:00:02.500"] = [2] := by
  decide

/-- C2 as stated fails: with cut list `["00:00:00.000", "00:00:05.000"]`
(`use_first` true, three segments), the even 0-based parity rule over all
segments would keep segments 1 and 3, but the code's loop never reaches the
final segment and keeps only segment 1. -/
theorem selectSegments_spec_counterexample :
    selectSegments ["00:00:00.000", "00:00:05.000"] = [1] ∧
    selectSegmentsSpec ["00:00:00.000", "00:00:05.000"] = [1, 3] ∧
    selectSegments ["00:00:00.000", "00:00:05.000"] ≠
      selectSegmentsSpec ["00:00:00.000", "00:00:05.000"] := by
  decide

/-- C2 amended: for every non-empty cut list the kept segments are exactly
the parity-matching ones among the first `N` segments only (the segment
after the last cut point is never emitted); the 1-based identifiers come out
in ascending order and the file names carry them zero-padded to three
digits. -/
theorem selectSegments_characterization (ct : List String) (h : ct ≠ []) :
    selectSegments ct =
      ((List.range ct.length).filter (keepIndex (useFirstOf ct))).map (· + 1) ∧
    List.Pairwise (· < ·) (selectSegments ct) ∧
    ∀ k ∈ selectSegments ct, k ≤ 999 →
      (mergeFileName k).data =
        ("split-".data ++ [Nat.digitChar (k / 100), Nat.digitChar (k / 10 % 10),
          Nat.digitChar (k % 10)]) ++ ".mka".data := by
  obtain ⟨t, rest, rfl⟩ := List.exists_cons_of_ne_nil h
  have huf : useFirstOf (t :: rest) = (t == "00:00:00.000") := rfl
  refine ⟨?_, ?_, ?_⟩
  · rw [selectSegments_cons, huf]
  · rw [selectSegments_cons, List.pairwise_map]
    exact List.Pairwise.imp (fun hab => by omega)
      (List.Pairwise.sublist (List.filter_sublist _) (List.pairwise_lt_range _))
  · intro k hk hk999
    rw [mergeFileName, String.data_append, String.data_append,
      pad3_data k (by omega)]

/-- Witness for the amended C2 at a two-element cut list whose first entry is
not the zero timecode. -/
theorem selectSegments_characterization_witness :
    (["00:00:02.500", "00:00:07.000"] : List String) ≠ [] ∧
    selectSegments ["00:00:02.500", "00:00:07.000"] =
      ((List.range (["00:00:02.500", "00:00:07.000"] : List String).length).filter
        (keepIndex (useFirstOf ["00:00:02.500", "00:00:07.000"]))).map (· + 1) :=
  ⟨by decide, (selectSegments_characterization _ (by decide)).1⟩

/-- C3: when the first cut timecode is the zero timecode (`use_first` true),
every emitted 1-based segment number is at most the number `N` of cut points,
hence never equal to the total segment count `N + 1`. -/
theorem selectSegments_le_length (ct : List String) (k : Nat)
    (_hfirst : ct.head? = some "00:00:00.000") (hk : k ∈ selectSegments ct) :
    k ≤ ct.length ∧ k ≠ ct.length + 1 := by
  have := mem_mergeLoop ct.length ct 0 false hk
  omega

/-- Witness for C3 at the cut list `["00:00:00.000", "00:00:05.000"]`. -/
theorem selectSegments_le_length_witness :
    1 ∈ selectSegments ["00:00:00.000", "00:00:05.000"] ∧ 1 ≤ 2 ∧ 1 ≠ 3 :=
  ⟨by decide,
    (selectSegments_le_length ["00:00:00.000", "00:00:05.000"] 1 rfl (by decide)).1,
    fun h => absurd h (by decide)⟩

/-- C6: the trim syntax contributes, for the `k`-th match, its start frame at
position `2k` and its end frame at position `2k + 1` of the extracted list,
whose length is twice the number of matches: both endpoints of every match
are kept, in left-to-right match order, with no reordering, deduplication, or
validation. -/
theorem trimFrames_ordered (trims : List TrimMatch) (k : Nat)
    (h : k < trims.length) :
    (trimFrames trims).length = 2 * trims.length ∧
    (trimFrames trims).get? (2 * k) = some (trims.get ⟨k, h⟩).startFrame ∧
    (trimFrames trims).get? (2 * k + 1) = some (trims.get ⟨k, h⟩).endFrame := by
  refine ⟨trimFrames_length trims, ?_⟩
  induction trims generalizing k with
  | nil => simp at h
  | cons m ts ih =>
    cases k with
    | zero => simp [trimFrames_cons]
    | succ k =>
      have hk : k < ts.length := by simpa using h
      have hrec := ih k hk
      have h2 : 2 * (k + 1) = (2 * k) + 1 + 1 := by omega
      simp only [trimFrames_cons, h2, List.get?_cons_succ, List.get_cons_succ]
      exact hrec

/-- Witness for C6 at the match list of `Trim(clip,0,99)Trim(clip,200,299)`. -/
theorem trimFrames_ordered_witness :
    (1 : Nat) < 2 ∧
    (trimFrames [⟨0, 99⟩, ⟨200, 299⟩]).length = 4 ∧
    (trimFrames [⟨0, 99⟩, ⟨200, 299⟩]).get? 2 = some 200 ∧
    (trimFrames [⟨0, 99⟩, ⟨200, 299⟩]).get? 3 = some 299 := by
  have := trimFrames_ordered [⟨0, 99⟩, ⟨200, 299⟩] 1 (by decide)
  exact ⟨by decide, by simpa using this.1, by simpa using this.2.1,
    by simpa using this.2.2⟩

/-- C4: for the `k`-th slice match, the contributed values are its start at
position `2k` and at position `2k + 1` the adjusted end: end minus one when
the raw end is non-negative, the oracle's total plus the raw end when it is
negative, and any negative result clamped to 0. -/
theorem sliceFrames_ordered (tf : Int) (slices : List SliceMatch) (k : Nat)
    (h : k < slices.length) (m : SliceMatch) (hm : slices.get ⟨k, h⟩ = m) :
    (sliceFrames tf slices).get? (2 * k) = some m.startFrame ∧
    (sliceFrames tf slices).get? (2 * k + 1) =
      some (clampFrame (sliceEnd tf m.endRaw)) ∧
    (0 ≤ m.endRaw → sliceEnd tf m.endRaw = m.endRaw - 1) ∧
    (m.endRaw < 0 → sliceEnd tf m.endRaw = tf + m.endRaw) ∧
    (sliceEnd tf m.endRaw < 0 → clampFrame (sliceEnd tf m.endRaw) = 0) := by
  subst hm
  refine ⟨?_, ?_, ?_, ?_, ?_⟩
  · induction slices generalizing k with
    | nil => simp at h
    | cons s ss ih =>
      cases k with
      | zero => simp [sliceFrames_cons]
      | succ k =>
        have hk : k < ss.length := by simpa using h
        have h2 : 2 * (k + 1) = (2 * k) + 1 + 1 := by omega
        simp only [sliceFrames_cons, h2, List.get?_cons_succ, List.get_cons_succ]
        exact ih k hk
  · induction slices generalizing k with
    | nil => simp at h
    | cons s ss ih =>
      cases k with
      | zero => simp [sliceFrames_cons]
      | succ k =>
        have hk : k < ss.length := by simpa using h
        have h2 : 2 * (k + 1) = (2 * k) + 1 + 1 := by omega
        simp only [sliceFrames_cons, h2, List.get?_cons_succ, List.get_cons_succ]
        exact ih k hk
  · intro he
    rw [sliceEnd, if_neg (by omega)]
  · intro he
    rw [sliceEnd, if_pos he]
  · intro he
    rw [clampFrame, if_pos he]

/-- Witness for C4 at slice matches `clip[0: 100]` and `clip[200: -1]` with
oracle total 500, checking the second match. -/
theorem sliceFrames_ordered_witness :
    (1 : Nat) < 2 ∧
    (sliceFrames 500 [⟨0, 100⟩, ⟨200, -1⟩]).get? 2 = some 200 ∧
    (sliceFrames 500 [⟨0, 100⟩, ⟨200, -1⟩]).get? 3 = some 499 := by
  have := sliceFrames_ordered 500 [⟨0, 100⟩, ⟨200, -1⟩] 1 (by decide) ⟨200, -1⟩ rfl
  refine ⟨by decide, by simpa using this.1, ?_⟩
  have h2 := this.2.1
  simpa using h2

/-- C5: the two extraction modes are mutually exclusive and ordered: when the
trim syntax yields at least one frame index the slice syntax contributes
nothing, and the slice results are consulted only when the trim syntax
yielded none. -/
theorem extractFrames_priority (trims : List TrimMatch)
    (slices : List SliceMatch) (tf : Int) :
    (trimFrames trims ≠ [] → extractFrames trims slices tf = trimFrames trims) ∧
    (trimFrames trims = [] → extractFrames trims slices tf = sliceFrames tf slices) := by
  constructor <;> intro h <;> simp [extractFrames, h]

/-- Witness for C5: with one trim match present, the slice matches are
ignored. -/
theorem extractFrames_priority_witness :
    trimFrames [⟨1, 2⟩] ≠ [] ∧
    extractFrames [⟨1, 2⟩] [⟨0, 100⟩] 7 = trimFrames [⟨1, 2⟩] :=
  ⟨by decide, (extractFrames_priority [⟨1, 2⟩] [⟨0, 100⟩] 7).1 (by decide)⟩

/-- C7: when extraction yields no frame index under either syntax, the run
aborts with the no-trims error and no merge plan is produced: the external
splitter and merger inputs are never assembled. -/
theorem splitAudioCore_aborts_when_empty (fps : ℚ) (delay : Int)
    (trims : List TrimMatch) (slices : List SliceMatch) (tf : Int)
    (h : extractFrames trims slices tf = []) :
    splitAudioCore fps delay trims slices tf = Except.error SplitError.noTrims := by
  simp [splitAudioCore, h, List.mapM, List.mapM.loop]

/-- Witness for C7 at a script with no matches of either syntax. -/
theorem splitAudioCore_aborts_when_empty_witness :
    extractFrames [] [] 0 = [] ∧
    splitAudioCore 1 0 [] [] 0 = Except.error SplitError.noTrims :=
  ⟨rfl, splitAudioCore_aborts_when_empty 1 0 [] [] 0 rfl⟩

/-! ### Timecode converter lemmas -/

lemma tcSeconds_nonneg (fps : ℚ) (frame : ℕ) (hfps : 0 < fps) :
    0 ≤ tcSeconds fps frame :=
  div_nonneg (Nat.cast_nonneg frame) hfps.le

lemma ratTrunc_of_nonneg {q : ℚ} (h : 0 ≤ q) : ratTrunc q = ⌊q⌋ :=
  if_neg (not_lt.mpr h)

lemma tcNano_eq (fps : ℚ) (frame : ℕ) (hfps : 0 < fps) :
    tcNano fps frame =
      (tcSeconds fps frame - (⌊tcSeconds fps frame⌋ : ℚ)) * 1000000000 := by
  rw [tcNano, ratTrunc_of_nonneg (tcSeconds_nonneg fps frame hfps)]

lemma tcNano_nonneg (fps : ℚ) (frame : ℕ) (hfps : 0 < fps) :
    0 ≤ tcNano fps frame := by
  rw [tcNano_eq fps frame hfps]
  have h := Int.floor_le (tcSeconds fps frame)
  have : (0 : ℚ) ≤ tcSeconds fps frame - (⌊tcSeconds fps frame⌋ : ℚ) := by
    linarith
  positivity

lemma tcNano_lt (fps : ℚ) (frame : ℕ) (hfps : 0 < fps) :
    tcNano fps frame < 1000000000 := by
  rw [tcNano_eq fps frame hfps]
  have h := Int.lt_floor_add_one (tcSeconds fps frame)
  nlinarith [h]

lemma ratToU32_tcNano_lt (fps : ℚ) (frame : ℕ) (hfps : 0 < fps) :
    ratToU32 (tcNano fps frame) < 1000000000 := by
  rw [ratToU32, if_neg (not_lt.mpr (tcNano_nonneg fps frame hfps))]
  have hfl : ⌊tcNano fps frame⌋ < 1000000000 := by
    rw [Int.floor_lt]
    exact_mod_cast tcNano_lt fps frame hfps
  omega

/-! ### Lexicographic order of formatted timecodes -/

lemma lex_append {r : Char → Char → Prop} {l1 l2 : List Char}
    (h : List.Lex r l1 l2) :
    ∀ (t1 t2 : List Char), l1.length = l2.length →
      List.Lex r (l1 ++ t1) (l2 ++ t2) := by
  induction h with
  | nil =>
    intro t1 t2 hl
    simp at hl
  | rel hr =>
    intro t1 t2 hl
    exact List.Lex.rel hr
  | cons _ ih =>
    intro t1 t2 hl
    exact List.Lex.cons (ih t1 t2 (by simpa using hl))

lemma append_lex {r : Char → Char → Prop} (l : List Char) {t1 t2 : List Char}
    (h : List.Lex r t1 t2) : List.Lex r (l ++ t1) (l ++ t2) := by
  induction l with
  | nil => simpa using h
  | cons a l ih => exact List.Lex.cons ih

lemma digitChar_lt_digitChar : ∀ a < 10, ∀ b < 10, a < b →
    Nat.digitChar a < Nat.digitChar b := by
  decide

lemma digits2_lex {a b : Nat} (hab : a < b) (hb : b < 100) :
    List.Lex (· < ·) [Nat.digitChar (a / 10), Nat.digitChar (a % 10)]
      [Nat.digitChar (b / 10), Nat.digitChar (b % 10)] := by
  have h10 : a / 10 ≤ b / 10 := Nat.div_le_div_right hab.le
  rcases eq_or_lt_of_le h10 with heq | hdiv
  · have hmod : a % 10 < b % 10 := by omega
    rw [heq]
    exact List.Lex.cons (List.Lex.rel
      (digitChar_lt_digitChar (a % 10) (by omega) (b % 10) (by omega) hmod))
  · exact List.Lex.rel
      (digitChar_lt_digitChar (a / 10) (by omega) (b / 10) (by omega) hdiv)

lemma digits3_lex {a b : Nat} (hab : a < b) (hb : b < 1000) :
    List.Lex (· < ·)
      [Nat.digitChar (a / 100), Nat.digitChar (a / 10 % 10), Nat.digitChar (a % 10)]
      [Nat.digitChar (b / 100), Nat.digitChar (b / 10 % 10), Nat.digitChar (b % 10)] := by
  have h100 : a / 100 ≤ b / 100 := Nat.div_le_div_right hab.le
  rcases eq_or_lt_of_le h100 with he1 | hd1
  · have h10 : a / 10 % 10 ≤ b / 10 % 10 := by omega
    rcases eq_or_lt_of_le h10 with he2 | hd2
    · have hmod : a % 10 < b % 10 := by omega
      rw [he1, he2]
      exact List.Lex.cons (List.Lex.cons (List.Lex.rel
        (digitChar_lt_digitChar (a % 10) (by omega) (b % 10) (by omega) hmod)))
    · rw [he1]
      exact List.Lex.cons (List.Lex.rel
        (digitChar_lt_digitChar (a / 10 % 10) (by omega) (b / 10 % 10) (by omega) hd2))
  · exact List.Lex.rel
      (digitChar_lt_digitChar (a / 100) (by omega) (b / 100) (by omega) hd1)

lemma format3_data (t : NaiveTime) (hs : t.secs < 86400)
    (hf : t.frac < 1000000000) :
    (NaiveTime.format3 t).data =
      [Nat.digitChar (t.secs / 3600 / 10), Nat.digitChar (t.secs / 3600 % 10), ':',
        Nat.digitChar (t.secs % 3600 / 60 / 10), Nat.digitChar (t.secs % 3600 / 60 % 10), ':',
        Nat.digitChar (t.secs % 60 / 10), Nat.digitChar (t.secs % 60 % 10), '.',
        Nat.digitChar (t.frac / 1000000 / 100), Nat.digitChar (t.frac / 1000000 / 10 % 10),
        Nat.digitChar (t.frac / 1000000 % 10)] := by
  have hdiv : t.frac / 1000000000 = 0 := Nat.div_eq_of_lt hf
  have hmod : t.frac % 1000000000 = t.frac := Nat.mod_eq_of_lt hf
  have e1 := pad2_data (t.secs / 3600) (by omega)
  have e2 := pad2_data (t.secs % 3600 / 60) (by omega)
  have e3 := pad2_data (t.secs % 60) (by omega)
  have e4 := pad3_data (t.frac / 1000000) (by omega)
  rw [NaiveTime.format3, hdiv, hmod, Nat.add_zero]
  simp only [String.data_append, e1, e2, e3, e4]
  rfl

lemma format3_mono (t1 t2 : NaiveTime) (h1s : t1.secs < 86400)
    (h2s : t2.secs < 86400) (h1f : t1.frac < 1000000000)
    (h2f : t2.frac < 1000000000)
    (hle : t1.secs < t2.secs ∨ (t1.secs = t2.secs ∧ t1.frac ≤ t2.frac)) :
    NaiveTime.format3 t1 = NaiveTime.format3 t2 ∨
      List.Lex (· < ·) (NaiveTime.format3 t1).data (NaiveTime.format3 t2).data := by
  have d1 := format3_data t1 h1s h1f
  have d2 := format3_data t2 h2s h2f
  rcases hle with hsec | ⟨hseq, hfle⟩
  · right
    rw [d1, d2]
    have hh : t1.secs / 3600 ≤ t2.secs / 3600 := Nat.div_le_div_right hsec.le
    rcases eq_or_lt_of_le hh with hh' | hh'
    · have hm : t1.secs % 3600 / 60 ≤ t2.secs % 3600 / 60 := by omega
      rcases eq_or_lt_of_le hm with hm' | hm'
      · have hs' : t1.secs % 60 < t2.secs % 60 := by omega
        rw [hh', hm']
        exact append_lex [Nat.digitChar (t2.secs / 3600 / 10),
          Nat.digitChar (t2.secs / 3600 % 10), ':',
          Nat.digitChar (t2.secs % 3600 / 60 / 10),
          Nat.digitChar (t2.secs % 3600 / 60 % 10), ':']
          (lex_append (digits2_lex hs' (by omega)) _ _ rfl)
      · rw [hh']
        exact append_lex [Nat.digitChar (t2.secs / 3600 / 10),
          Nat.digitChar (t2.secs / 3600 % 10), ':']
          (lex_append (digits2_lex hm' (by omega)) _ _ rfl)
    · exact lex_append (digits2_lex hh' (by omega)) _ _ rfl
  · have hms : t1.frac / 1000000 ≤ t2.frac / 1000000 := Nat.div_le_div_right hfle
    rcases eq_or_lt_of_le hms with hms' | hms'
    · left
      apply String.ext
      rw [d1, d2, hseq, hms']
    · right
      rw [d1, d2, hseq]
      exact append_lex [Nat.digitChar (t2.secs / 3600 / 10),
        Nat.digitChar (t2.secs / 3600 % 10), ':',
        Nat.digitChar (t2.secs % 3600 / 60 / 10),
        Nat.digitChar (t2.secs % 3600 / 60 % 10), ':',
        Nat.digitChar (t2.secs % 60 / 10), Nat.digitChar (t2.secs % 60 % 10), '.']
        (digits3_lex hms' (by omega))

lemma fromSecondsOpt_eq_some {secs nano : Nat} {t : NaiveTime}
    (h : NaiveTime.fromSecondsOpt secs nano = some t) :
    t.secs = secs ∧ t.frac = nano ∧ secs < 86400 ∧ nano < 2000000000 := by
  rw [NaiveTime.fromSecondsOpt] at h
  split at h
  · rename_i hc
    rw [Option.some.injEq] at h
    subst h
    simp only [Bool.and_eq_true, decide_eq_true_eq] at hc
    exact ⟨rfl, rfl, hc.1, hc.2⟩
  · exact absurd h (by simp)

/-! ### Claim theorems for the converter -/

/-- C9: for every positive framerate, frame index 0 converts to exactly the
zero timecode string. -/
theorem toTimecode_zero (fps : ℚ) (_hfps : 0 < fps) :
    toTimecode fps 0 = some "00:00:00.000" := by
  have h0 : tcSeconds fps 0 = 0 := by
    simp [tcSeconds]
  have hn : tcNano fps 0 = 0 := by
    simp [tcNano, h0, ratTrunc]
  rw [toTimecode, h0, hn]
  have ht : ratTrunc 0 = 0 := by
    simp [ratTrunc]
  rw [ht]
  have hr : ratToU32 ((0 : ℤ) : ℚ) = 0 := by
    simp [ratToU32]
  have hr0 : ratToU32 0 = 0 := by
    simp [ratToU32]
  rw [show (((0 : ℤ) : ℚ)) = (0 : ℚ) by norm_num, hr0]
  decide

/-- Witness for C9 at framerate 1. -/
theorem toTimecode_zero_witness :
    (0 : ℚ) < 1 ∧ toTimecode 1 0 = some "00:00:00.000" :=
  ⟨by norm_num, toTimecode_zero 1 (by norm_num)⟩

/-- C10: whenever the exact quotient frame / framerate is below 86400
seconds, the conversion cannot fail: the computed nanosecond value stays
strictly below 1000000000, the whole seconds fit a time of day, and the
time-of-day construction succeeds, so the panic branch of the unwrap is
unreachable. -/
theorem toTimecode_total (fps : ℚ) (frame : ℕ) (hfps : 0 < fps)
    (hsec : tcSeconds fps frame < 86400) :
    ratToU32 (tcNano fps frame) < 1000000000 ∧
      (toTimecode fps frame).isSome = true := by
  refine ⟨ratToU32_tcNano_lt fps frame hfps, ?_⟩
  have hq0 : 0 ≤ tcSeconds fps frame := tcSeconds_nonneg fps frame hfps
  have htr : ratTrunc (tcSeconds fps frame) = ⌊tcSeconds fps frame⌋ :=
    ratTrunc_of_nonneg hq0
  have hfl0 : 0 ≤ ⌊tcSeconds fps frame⌋ := Int.floor_nonneg.mpr hq0
  have hfl : ⌊tcSeconds fps frame⌋ < 86400 := by
    rw [Int.floor_lt]
    exact_mod_cast hsec
  have hsecs : ratToU32 ((⌊tcSeconds fps frame⌋ : ℤ) : ℚ) < 86400 := by
    rw [ratToU32, if_neg (not_lt.mpr (by exact_mod_cast hfl0)), Int.floor_intCast]
    omega
  rw [toTimecode, htr]
  rw [NaiveTime.fromSecondsOpt, if_pos]
  · rfl
  · have hn := ratToU32_tcNano_lt fps frame hfps
    have h1 : decide (ratToU32 ((⌊tcSeconds fps frame⌋ : ℤ) : ℚ) < 86400) = true := by
      simpa using hsecs
    have h2 : decide (ratToU32 (tcNano fps frame) < 2000000000) = true := by
      simp only [decide_eq_true_eq]
      omega
    simp [hsecs]
    omega

/-- C8: for a fixed positive framerate, the timecode string of a smaller
frame index is lexicographically at most the timecode string of a larger
one, whenever both conversions succeed. -/
theorem toTimecode_mono (fps : ℚ) (f1 f2 : ℕ) (s1 s2 : String)
    (hfps : 0 < fps) (hf : f1 < f2)
    (h1 : toTimecode fps f1 = some s1) (h2 : toTimecode fps f2 = some s2) :
    s1 = s2 ∨ s1 < s2 := by
  have hq1 : 0 ≤ tcSeconds fps f1 := tcSeconds_nonneg fps f1 hfps
  have hq2 : 0 ≤ tcSeconds fps f2 := tcSeconds_nonneg fps f2 hfps
  have hqle : tcSeconds fps f1 ≤ tcSeconds fps f2 := by
    rw [tcSeconds, tcSeconds]
    exact (div_le_div_iff_of_pos_right hfps).mpr (Nat.cast_le.mpr hf.le)
  have htr1 : ratTrunc (tcSeconds fps f1) = ⌊tcSeconds fps f1⌋ :=
    ratTrunc_of_nonneg hq1
  have htr2 : ratTrunc (tcSeconds fps f2) = ⌊tcSeconds fps f2⌋ :=
    ratTrunc_of_nonneg hq2
  have hfl : ⌊tcSeconds fps f1⌋ ≤ ⌊tcSeconds fps f2⌋ := Int.floor_mono hqle
  have hfl1 : 0 ≤ ⌊tcSeconds fps f1⌋ := Int.floor_nonneg.mpr hq1
  have hfl2 : 0 ≤ ⌊tcSeconds fps f2⌋ := Int.floor_nonneg.mpr hq2
  rw [toTimecode, htr1, Option.map_eq_some'] at h1
  rw [toTimecode, htr2, Option.map_eq_some'] at h2
  obtain ⟨t1, ht1, hs1⟩ := h1
  obtain ⟨t2, ht2, hs2⟩ := h2
  obtain ⟨e1s, e1f, hA1, _⟩ := fromSecondsOpt_eq_some ht1
  obtain ⟨e2s, e2f, hA2, _⟩ := fromSecondsOpt_eq_some ht2
  have hA1eq : ratToU32 ((⌊tcSeconds fps f1⌋ : ℤ) : ℚ) =
      min ⌊tcSeconds fps f1⌋.toNat 4294967295 := by
    rw [ratToU32, if_neg (not_lt.mpr (by exact_mod_cast hfl1)), Int.floor_intCast]
  have hA2eq : ratToU32 ((⌊tcSeconds fps f2⌋ : ℤ) : ℚ) =
      min ⌊tcSeconds fps f2⌋.toNat 4294967295 := by
    rw [ratToU32, if_neg (not_lt.mpr (by exact_mod_cast hfl2)), Int.floor_intCast]
  rw [hA1eq] at e1s hA1
  rw [hA2eq] at e2s hA2
  have hasle : t1.secs ≤ t2.secs := by omega
  have hb1f : t1.frac < 1000000000 := by
    rw [e1f]
    exact ratToU32_tcNano_lt fps f1 hfps
  have hb2f : t2.frac < 1000000000 := by
    rw [e2f]
    exact ratToU32_tcNano_lt fps f2 hfps
  have hBle : t1.secs = t2.secs → t1.frac ≤ t2.frac := by
    intro he
    have hfleq : ⌊tcSeconds fps f1⌋ = ⌊tcSeconds fps f2⌋ := by omega
    have hfr : tcNano fps f1 ≤ tcNano fps f2 := by
      rw [tcNano_eq fps f1 hfps, tcNano_eq fps f2 hfps]
      have hsub : tcSeconds fps f1 - (⌊tcSeconds fps f1⌋ : ℚ) ≤
          tcSeconds fps f2 - (⌊tcSeconds fps f2⌋ : ℚ) := by
        rw [hfleq]
        linarith
      nlinarith [hsub]
    have hBfl : ⌊tcNano fps f1⌋ ≤ ⌊tcNano fps f2⌋ := Int.floor_mono hfr
    have hB1eq : t1.frac = min ⌊tcNano fps f1⌋.toNat 4294967295 := by
      rw [e1f, ratToU32, if_neg (not_lt.mpr (tcNano_nonneg fps f1 hfps))]
    have hB2eq : t2.frac = min ⌊tcNano fps f2⌋.toNat 4294967295 := by
      rw [e2f, ratToU32, if_neg (not_lt.mpr (tcNano_nonneg fps f2 hfps))]
    omega
  have hle : t1.secs < t2.secs ∨ (t1.secs = t2.secs ∧ t1.frac ≤ t2.frac) := by
    rcases lt_or_eq_of_le hasle with hlt | heq
    · exact Or.inl hlt
    · exact Or.inr ⟨heq, hBle heq⟩
  have hmono := format3_mono t1 t2 (by omega) (by omega) hb1f hb2f hle
  subst hs1
  subst hs2
  rcases hmono with heq | hlex
  · exact Or.inl heq
  · refine Or.inr ?_
    rw [String.lt_iff_toList_lt]
    exact hlex

/-- Witness for C8 at framerate 1 with frames 1 and 2. -/
theorem toTimecode_mono_witness :
    (0 : ℚ) < 1 ∧ 1 < 2 ∧
      toTimecode 1 1 = some "00:00:01.000" ∧
      toTimecode 1 2 = some "00:00:02.000" ∧
      ("00:00:01.000" = "00:00:02.000" ∨ ("00:00:01.000" : String) < "00:00:02.000") := by
  have hfps : (0 : ℚ) < 1 := by norm_num
  have e1 : toTimecode 1 1 = some "00:00:01.000" := by
    have hs : tcSeconds 1 1 = 1 := by
      rw [tcSeconds]
      norm_num
    have htr : ratTrunc (tcSeconds 1 1) = 1 := by
      rw [hs, ratTrunc, if_neg (by norm_num)]
      norm_num
    have hn : tcNano 1 1 = 0 := by
      rw [tcNano, hs]
      rw [show ratTrunc 1 = 1 by rw [ratTrunc, if_neg (by norm_num)]; norm_num]
      norm_num
    rw [toTimecode, htr, hn]
    have h1 : ratToU32 ((1 : ℤ) : ℚ) = 1 := by
      rw [ratToU32, if_neg (by norm_num), Int.floor_intCast]
      rfl
    have h0 : ratToU32 0 = 0 := by
      rw [ratToU32, if_neg (by norm_num)]
      norm_num
    rw [h1, h0]
    decide
  have e2 : toTimecode 1 2 = some "00:00:02.000" := by
    have hs : tcSeconds 1 2 = 2 := by
      rw [tcSeconds]
      norm_num
    have htr : ratTrunc (tcSeconds 1 2) = 2 := by
      rw [hs, ratTrunc, if_neg (by norm_num)]
      norm_num
    have hn : tcNano 1 2 = 0 := by
      rw [tcNano, hs]
      rw [show ratTrunc 2 = 2 by rw [ratTrunc, if_neg (by norm_num)]; norm_num]
      norm_num
    rw [toTimecode, htr, hn]
    have h2 : ratToU32 ((2 : ℤ) : ℚ) = 2 := by
      rw [ratToU32, if_neg (by norm_num), Int.floor_intCast]
      rfl
    have h0 : ratToU32 0 = 0 := by
      rw [ratToU32, if_neg (by norm_num)]
      norm_num
    rw [h2, h0]
    decide
  exact ⟨hfps, by norm_num, e1, e2, toTimecode_mono 1 1 2 _ _ hfps (by norm_num) e1 e2⟩

/-- Witness for C10 at framerate 1 and frame 1. -/
theorem toTimecode_total_witness :
    (0 : ℚ) < 1 ∧ tcSeconds 1 1 < 86400 ∧
      ratToU32 (tcNano 1 1) < 1000000000 ∧ (toTimecode 1 1).isSome = true := by
  have h1 : (0 : ℚ) < 1 := by norm_num
  have h2 : tcSeconds 1 1 < 86400 := by
    rw [tcSeconds]
    norm_num
  exact ⟨h1, h2, toTimecode_total 1 1 h1 h2⟩

end SplitAud
